import Mathlib

/-!
Shallow embedding of `src/backend/models/faiss_store.py` (class `FAISSBuilder`):
the embedding loader, index-parameter derivation, index lifecycle (as a trace of
Vector Index Engine operations), benchmark arithmetic, and artifact publishing
(as explicit file-system state passing).

Conventions:
* float64 array entries are modelled by `Val` (a rational number, NaN, +inf or -inf);
* machine floats never decide any branch taken by the orchestrator except via
  `np.isnan`, which `Val` models exactly;
* `int(np.sqrt(N))` is the floor of the real square root for every array length
  representable without float64 rounding (N ≤ 2^52); it is modelled by the
  structurally recursive `intSqrt`, proved below to compute the floor square root;
* wall-clock durations are a parameter (`elapsed`), since real time is external;
* the save directory is modelled as an association list from file names to entries
  (regular file or symbolic link), with `os.path.exists` resolving links and
  `os.symlink` failing when the link name itself already exists.
-/

namespace FaissStore

/-- One float64 scalar of the loaded numpy array: a finite value (modelled as the
exact rational it denotes), NaN, +inf or -inf. -/
inductive Val where
  | fin (q : ℚ)
  | nan
  | inf
  | ninf
deriving DecidableEq

/-- Largest finite float64 value, (2^53 - 1) * 2^971; `np.nan_to_num` substitutes
it for +inf (and its negation for -inf). -/
def maxFloat : ℚ := (2 ^ 53 - 1) * 2 ^ 971

/-- Exact model of `np.isnan` on one entry. -/
def isnan : Val → Bool
  | .nan => true
  | _ => false

/-- Exact model of `np.nan_to_num` on one entry: NaN becomes 0, +inf the largest
finite float, -inf the smallest. -/
def nanToNum : Val → Val
  | .nan => .fin 0
  | .inf => .fin maxFloat
  | .ninf => .fin (-maxFloat)
  | .fin q => .fin q

/-- A loaded numpy object: its shape, whether its dtype is numeric (so that
`np.isnan` applies), and its entries in row-major order. -/
structure NDArray where
  shape : List Nat
  numeric : Bool
  data : List Val
deriving DecidableEq

/-- The all-zero N x D float matrix, used as a concrete input. -/
def mkZeros (n d : Nat) : NDArray :=
  { shape := [n, d], numeric := true, data := List.replicate (n * d) (.fin 0) }

/-- Error taxonomy of the build pipeline, named after the spec's section 7;
each constructor corresponds to one exception the source can raise:
`missingInput` = FileNotFoundError from `np.load`, `malformedInput` = the
IndexError/TypeError raised by `len`/`shape[1]`/`np.isnan` on a non rank-2 or
non-numeric object, `unsupportedVariant` = the ValueError of `build_index`,
`zeroDivision` = ZeroDivisionError in `test_index`, `fileExists` = the
FileExistsError of `os.symlink` in `save_index`. -/
inductive BuildError where
  | missingInput
  | malformedInput
  | unsupportedVariant (tag : String)
  | zeroDivision
  | fileExists (path : String)
deriving DecidableEq

/-- Observable logging side effects of the loader (source lines 57 and 62). -/
inductive LogEvent where
  | loadedInfo (n d : Nat)
  | nanWarning (count : Nat)
deriving DecidableEq

/-- Number of NaN entries of the loaded object (`np.isnan(embeddings).sum()`,
source line 60). -/
def nan_count (a : NDArray) : Nat := (a.data.filter (fun v => isnan v)).length

/-- Model of `FAISSBuilder.load_embeddings` (source lines 48-77) on an already
loaded object.  The source first evaluates `len(embeddings)` and
`embeddings.shape[1]` for the info log line (raising for rank < 2), then
`np.isnan` (raising TypeError for a non-numeric dtype), then replaces NaNs by
zero via `np.nan_to_num` - but only when at least one NaN was found. -/
def load_embeddings (a : NDArray) : Except BuildError (NDArray × List LogEvent) :=
  if a.shape.length < 2 then .error .malformedInput
  else if a.numeric = false then .error .malformedInput
  else
    let n := a.shape.headI
    let d := a.shape.tail.headI
    if 0 < nan_count a then
      .ok ({ a with data := a.data.map nanToNum },
           [.loadedInfo n d, .nanWarning (nan_count a)])
    else
      .ok (a, [.loadedInfo n d])

/-- Floor integer square root, computed by downward search with structural
recursion (so that the kernel can evaluate it); `intSqrt.go n s` is the largest
`k ≤ s` with `k * k ≤ n`.  This models `int(np.sqrt(num_vectors))` at source
line 100: float64 `np.sqrt` is correctly rounded and `int` truncates, so the
composite is the floor square root for every N ≤ 2^52. -/
def intSqrt (n : Nat) : Nat := go n n
where
  go (n : Nat) : Nat → Nat
    | 0 => 0
    | s + 1 => if (s + 1) * (s + 1) ≤ n then s + 1 else go n s

/-- Cluster-count heuristic of the IVFPQ branch, source lines 100-101:
`min(int(np.sqrt(num_vectors)), 1024)` then `max(·, 4)`. -/
def num_clusters (num_vectors : Nat) : Nat := max (min (intSqrt num_vectors) 1024) 4

/-- Subvector-count heuristic of the IVFPQ branch, source line 105:
`min(64, dimension // 2)`. -/
def num_subvectors (dimension : Nat) : Nat := min 64 (dimension / 2)

/-- Post-build search width, source line 154: `max(1, num_clusters // 10)`. -/
def nprobe_of (clusters : Nat) : Nat := max 1 (clusters / 10)

/-- Clamp `x` into the interval `[lo, hi]` (the spec's `clamp(x, lo, hi)`). -/
def clamp (lo hi x : Nat) : Nat := max lo (min x hi)

/-- Nearest integer to the real square root of `n` (round-half-up; a tie is
impossible at an integer argument).  Follows the spec's words `round(sqrt(N))`:
it exceeds the floor square root `s` exactly when `sqrt n >= s + 1/2`,
i.e. `n >= s^2 + s + 1/4`, i.e. `s^2 + s + 1 <= n` on integers. -/
def roundSqrt (n : Nat) : Nat :=
  let s := intSqrt n
  if s * s + s + 1 ≤ n then s + 1 else s

/-- Cluster count as the spec's section 4.2 words it:
`clusters = clamp(round(sqrt(N)), 4, 1024)`. -/
def specClusters (n : Nat) : Nat := clamp 4 1024 (roundSqrt n)

/-- The three index variants the source instantiates. -/
inductive IndexKind where
  | flat
  | ivfpq
  | hnsw
deriving DecidableEq

/-- The observable state of the Engine index handle after `build_index`:
variant, dimensionality, populated vector count, and the structural and
search-time parameters the source derives and sets. -/
structure IndexState where
  kind : IndexKind
  dimension : Nat
  ntotal : Nat
  numClusters : Option Nat := none
  numSubvectors : Option Nat := none
  bitsPerCode : Option Nat := none
  hnswM : Option Nat := none
  efConstruction : Option Nat := none
  nprobe : Option Nat := none
  efSearch : Option Nat := none
deriving DecidableEq

/-- One invocation of a Vector Index Engine primitive, in program order. -/
inductive EngineOp where
  | instantiate (kind : IndexKind) (dimension : Nat)
  | setEfConstruction (value : Nat)
  | train (data : List Val)
  | add (data : List Val)
  | search (query : List Val) (k : Nat)
  | setNprobe (value : Nat)
  | setEfSearch (value : Nat)
deriving DecidableEq

def isTrainOp : EngineOp → Bool
  | .train _ => true
  | _ => false

def isAddOp : EngineOp → Bool
  | .add _ => true
  | _ => false

/-- Modelled from the spec: the Vector Index Engine supplies its four primitives
`train`, `add`, `search` and the parameter accessors for each of the variants
(section 2), and the variants other than IVFPQ implement `train` as a no-op
rather than omit it (section 9: "others implement it as a no-op to keep the
Builder's lifecycle uniform").  The builder's runtime capability probe
`hasattr(index, 'train')` at source line 139 therefore succeeds for every
variant. -/
def hasTrainAttr (_kind : IndexKind) : Bool := true

/-- Modelled from the spec: only the IVFPQ variant exposes the `nprobe`
search-width accessor probed at source line 152 (sections 4.2 and 4.3 assign
`nprobe` to IVFPQ alone; Flat and HNSW have no such knob). -/
def hasNprobeAttr : IndexKind → Bool
  | .ivfpq => true
  | _ => false

/-- Modelled from the spec: only the HNSW variant exposes the `hnsw.efSearch`
accessor probed at source line 158. -/
def hasHnswAttr : IndexKind → Bool
  | .hnsw => true
  | _ => false

/-- Model of `FAISSBuilder.build_index` (source lines 79-167) with the
accelerated-device branch external (spec section 1 puts device management out
of scope; modelled with `faiss.get_num_gpus() = 0`, so lines 133-136 and
162-165 are skipped).  Returns the final index state together with the trace of
Engine operations, or the `ValueError` of lines 128-130 for an unrecognized
variant tag - raised before any Engine interaction.  `dimension` and
`num_vectors` read `shape[1]` and `shape[0]`; the pipeline only calls this
after `load_embeddings` has guaranteed rank >= 2. -/
def build_index (embeddings : NDArray) (index_type : String) :
    Except BuildError (IndexState × List EngineOp) :=
  let dimension := embeddings.shape.tail.headI
  let num_vectors := embeddings.shape.headI
  let init :=
    if index_type = "flat" then
      .ok ({ kind := .flat, dimension := dimension, ntotal := 0 },
           [EngineOp.instantiate .flat dimension])
    else if index_type = "ivfpq" then
      .ok ({ kind := .ivfpq, dimension := dimension, ntotal := 0,
             numClusters := some (num_clusters num_vectors),
             numSubvectors := some (num_subvectors dimension),
             bitsPerCode := some 8 },
           [EngineOp.instantiate .ivfpq dimension])
    else if index_type = "hnsw" then
      .ok ({ kind := .hnsw, dimension := dimension, ntotal := 0,
             hnswM := some 16, efConstruction := some 200 },
           [EngineOp.instantiate .hnsw dimension, EngineOp.setEfConstruction 200])
    else
      (.error (.unsupportedVariant index_type) :
        Except BuildError (IndexState × List EngineOp))
  match init with
  | .error e => .error e
  | .ok (st0, ops0) =>
    -- source lines 139-143: `if hasattr(index, 'train'): index.train(embeddings)`
    let ops1 := if hasTrainAttr st0.kind then ops0 ++ [EngineOp.train embeddings.data] else ops0
    -- source line 148: `index.add(embeddings)`
    let st2 := { st0 with ntotal := num_vectors }
    let ops2 := ops1 ++ [EngineOp.add embeddings.data]
    -- source lines 152-156: `if hasattr(index, 'nprobe'): index.nprobe = max(1, num_clusters // 10)`
    let st3 := if hasNprobeAttr st2.kind then
        { st2 with nprobe := some (nprobe_of (st2.numClusters.getD 0)) } else st2
    let ops3 := if hasNprobeAttr st2.kind then
        ops2 ++ [EngineOp.setNprobe (nprobe_of (st2.numClusters.getD 0))] else ops2
    -- source lines 158-160: `if hasattr(index, 'hnsw') and ...: index.hnsw.efSearch = 64`
    let st4 := if hasHnswAttr st3.kind then { st3 with efSearch := some 64 } else st3
    let ops4 := if hasHnswAttr st3.kind then ops3 ++ [EngineOp.setEfSearch 64] else ops3
    .ok (st4, ops4)

/-- The index state `build_index` produces, when it succeeds. -/
def builtState (embeddings : NDArray) (index_type : String) : Option IndexState :=
  (build_index embeddings index_type).toOption.map (·.1)

/-- Row `i` of the loaded matrix (row-major data, `shape[1]` entries per row). -/
def rowOf (e : NDArray) (i : Nat) : List Val :=
  (e.data.drop (i * e.shape.tail.headI)).take e.shape.tail.headI

/-- Model of `FAISSBuilder.test_index` (source lines 169-200).  The wall-clock
duration of the query loop is the parameter `elapsed` (external real time).
The source takes `test_vectors = embeddings[:num_test]` and issues one
single-row query per loop iteration; it divides by `num_test` and by
`total_time` afterwards, so a zero sample count or a zero elapsed time raises
ZeroDivisionError - after the searches already ran.  Returns the trace of
search operations together with `(avg_time_ms, qps)` or the error. -/
def test_index (_index : IndexState) (embeddings : NDArray) (k : Nat) (elapsed : ℚ) :
    List EngineOp × Except BuildError (ℚ × ℚ) :=
  let d := embeddings.shape.tail.headI
  let num_test := min 100 embeddings.shape.headI
  let test_vectors := embeddings.data.take (num_test * d)
  let trace := (List.range num_test).map
    (fun i => EngineOp.search ((test_vectors.drop (i * d)).take d) k)
  if num_test = 0 then (trace, .error .zeroDivision)
  else if elapsed = 0 then (trace, .error .zeroDivision)
  else (trace, .ok ((elapsed / num_test) * 1000, (num_test : ℚ) / elapsed))

/-- An entry of the save directory: a regular file (opaque contents) or a
symbolic link to another name in the same directory. -/
inductive Entry where
  | file
  | symlink (target : String)
deriving DecidableEq

/-- The save directory: an association list from file names to entries; the
head entry for a name shadows older ones. -/
abbrev FS := List (String × Entry)

/-- Look a name up in the directory (no link resolution). -/
def lookupFS (fs : FS) (p : String) : Option Entry :=
  ((fs.find? (fun e => e.1 = p)).map (·.2))

/-- Model of `os.remove`: removes the entry under the name itself (a link is
removed, not its target). -/
def removeFS (fs : FS) (p : String) : FS := fs.filter (fun e => ¬ e.1 = p)

/-- Model of writing a regular file under a name, replacing what was there. -/
def writeFS (fs : FS) (p : String) : FS := (p, Entry.file) :: removeFS fs p

/-- Model of `os.path.lexists` - the check `os.symlink` itself performs: the
name is present, dangling link or not. -/
def lexistsFS (fs : FS) (p : String) : Bool := (lookupFS fs p).isSome

/-- Link resolution with fuel, as the OS resolves a chain of symbolic links up
to a loop limit (exceeding it yields an error, which `os.path.exists` reports
as `False`). -/
def resolveExists (fs : FS) : Nat → String → Bool
  | 0, _ => false
  | fuel + 1, p =>
    match lookupFS fs p with
    | none => false
    | some .file => true
    | some (.symlink target) => resolveExists fs fuel target

/-- Model of `os.path.exists`: resolves symbolic links, so a dangling "latest"
link does not exist for this check even though its name is present. -/
def existsFS (fs : FS) (p : String) : Bool := resolveExists fs 40 p

def indexPathOf (index_type timestamp : String) : String :=
  "faiss_" ++ index_type ++ "_" ++ timestamp ++ ".index"

def metaPathOf (index_type timestamp : String) : String :=
  "faiss_" ++ index_type ++ "_" ++ timestamp ++ "_meta.pkl"

def latestPathOf (index_type : String) : String :=
  "faiss_" ++ index_type ++ "_latest.index"

/-- Model of `FAISSBuilder.save_index` (source lines 202-236).  Writes the
timestamped index blob, then the metadata sidecar when metadata is given, then
republishes the "latest" pointer: `if os.path.exists(latest_path):
os.remove(latest_path)` followed by `os.symlink(index_path, latest_path)`.
`os.symlink` raises FileExistsError when the link name is still present -
which happens exactly when the existence check skipped the removal because the
pre-existing pointer was dangling.  Returns the directory state reached (file
writes persist past a later failure) and the saved path or the error. -/
def save_index (fs : FS) (index_type timestamp : String) (hasMetadata : Bool) :
    FS × Except BuildError String :=
  let index_path := indexPathOf index_type timestamp
  let fs1 := writeFS fs index_path
  let fs2 := if hasMetadata then writeFS fs1 (metaPathOf index_type timestamp) else fs1
  let latest_path := latestPathOf index_type
  let fs3 := if existsFS fs2 latest_path then removeFS fs2 latest_path else fs2
  if lexistsFS fs3 latest_path then (fs3, .error (.fileExists latest_path))
  else ((latest_path, Entry.symlink index_path) :: fs3, .ok index_path)

/-- ASCII model of one step of Python's `str.lower()`: uppercase ASCII letters
gain 32, everything else is unchanged. -/
def lowerChar (c : Char) : Char :=
  if 'A' ≤ c ∧ c ≤ 'Z' then Char.ofNat (c.toNat + 32) else c

/-- ASCII model of `index_type.lower()` from `FAISSBuilder.__init__` (source
line 42).  The three recognized tags are ASCII, so only the lowering of ASCII
letters can influence which branch `build_index` takes. -/
def toLowerStr (s : String) : String := ⟨s.data.map lowerChar⟩

/-- Input of one full build: the object `np.load` yields (`none` when the file
is missing), the constructor's `index_type` argument (lowercased by
`__init__`), the build timestamp, and the wall-clock duration of the benchmark
loop. -/
structure BuildInput where
  loaded : Option NDArray
  index_type : String
  timestamp : String
  elapsed : ℚ

/-- Outcome of one full build: directory state, Engine-operation trace, and the
saved index path or the fatal error. -/
structure BuildResult where
  fs : FS
  trace : List EngineOp
  out : Except BuildError String

/-- Model of `FAISSBuilder.build` (source lines 238-276): load, build the
index, benchmark it, save it with metadata (the metadata dictionary is always
non-empty, so the sidecar is always written).  A failing stage propagates its
exception; the directory is only touched by `save_index`. -/
def build (inp : BuildInput) (fs : FS) : BuildResult :=
  let index_type := toLowerStr inp.index_type
  match inp.loaded with
  | none => { fs := fs, trace := [], out := .error .missingInput }
  | some a =>
    match load_embeddings a with
    | .error e => { fs := fs, trace := [], out := .error e }
    | .ok (embeddings, _logs) =>
      match build_index embeddings index_type with
      | .error e => { fs := fs, trace := [], out := .error e }
      | .ok (index, tr1) =>
        let (tr2, tres) := test_index index embeddings 10 inp.elapsed
        match tres with
        | .error e => { fs := fs, trace := tr1 ++ tr2, out := .error e }
        | .ok _perf =>
          match save_index fs index_type inp.timestamp true with
          | (fs2, .error e) => { fs := fs2, trace := tr1 ++ tr2, out := .error e }
          | (fs2, .ok path) => { fs := fs2, trace := tr1 ++ tr2, out := .ok path }

/-- A 1 x 1 numeric matrix whose single entry is +inf and which holds no NaN. -/
def infMat : NDArray := { shape := [1, 1], numeric := true, data := [Val.inf] }

/-- A 1 x 2 numeric matrix with one NaN entry. -/
def nanMat : NDArray := { shape := [1, 2], numeric := true, data := [Val.nan, Val.fin 1] }

/-- A rank-3 numeric array (shape 1 x 1 x 1). -/
def rank3Mat : NDArray := { shape := [1, 1, 1], numeric := true, data := [Val.fin 0] }

/-- Index handle used by the benchmark witness. -/
def probeState : IndexState := { kind := .flat, dimension := 1, ntotal := 1 }

/-- Input with the unsupported variant tag "lsh" over a well-formed 1 x 1
matrix. -/
def inpLsh : BuildInput :=
  { loaded := some (mkZeros 1 1), index_type := "lsh",
    timestamp := "20260101-000000", elapsed := 1 }

/-- Input for a successful IVFPQ build over a 5 x 8 matrix. -/
def inpOk : BuildInput :=
  { loaded := some (mkZeros 5 8), index_type := "ivfpq",
    timestamp := "20260101-000000", elapsed := 1 }

/-- Save directory holding only a dangling "latest" pointer for the ivfpq
variant. -/
def fsDangling : FS :=
  [(latestPathOf "ivfpq", .symlink "faiss_ivfpq_20250101-000000.index")]

/-! ### Helper lemmas -/

set_option maxRecDepth 8000

theorem intSqrt_go_le (n : Nat) : ∀ s, intSqrt.go n s ≤ s := by
  intro s
  induction s with
  | zero => simp [intSqrt.go]
  | succ s ih =>
    simp only [intSqrt.go]
    split
    · exact Nat.le_refl _
    · exact Nat.le_trans ih (Nat.le_succ s)

theorem intSqrt_go_mono_left {m n : Nat} (h : m ≤ n) : ∀ s, intSqrt.go m s ≤ intSqrt.go n s := by
  intro s
  induction s with
  | zero => simp [intSqrt.go]
  | succ s ih =>
    simp only [intSqrt.go]
    split
    · rename_i hle
      rw [if_pos (Nat.le_trans hle h)]
    · split
      · exact Nat.le_trans (intSqrt_go_le m s) (Nat.le_succ s)
      · exact ih

theorem intSqrt_go_mono_fuel (n : Nat) : ∀ s, intSqrt.go n s ≤ intSqrt.go n (s + 1) := by
  intro s
  simp only [intSqrt.go]
  split
  · exact Nat.le_trans (intSqrt_go_le n s) (Nat.le_succ s)
  · exact Nat.le_refl _

theorem intSqrt_go_mono_fuel_le (n : Nat) {s t : Nat} (h : s ≤ t) :
    intSqrt.go n s ≤ intSqrt.go n t := by
  induction t with
  | zero => cases Nat.le_zero.mp h; exact Nat.le_refl _
  | succ t iht =>
    rcases Nat.lt_or_ge s (t + 1) with hlt | hge
    · exact Nat.le_trans (iht (Nat.lt_succ_iff.mp hlt)) (intSqrt_go_mono_fuel n t)
    · cases Nat.le_antisymm h hge; exact Nat.le_refl _

/-- `intSqrt` is monotone, as the floor square root is. -/
theorem intSqrt_mono {m n : Nat} (h : m ≤ n) : intSqrt m ≤ intSqrt n :=
  Nat.le_trans (intSqrt_go_mono_left h m) (intSqrt_go_mono_fuel_le n h)

theorem intSqrt_go_spec (n : Nat) :
    ∀ s, n < (s + 1) * (s + 1) →
      intSqrt.go n s * intSqrt.go n s ≤ n ∧ n < (intSqrt.go n s + 1) * (intSqrt.go n s + 1) := by
  intro s
  induction s with
  | zero => intro h; simpa [intSqrt.go] using h
  | succ s ih =>
    intro h
    simp only [intSqrt.go]
    split
    · rename_i hle
      exact ⟨hle, h⟩
    · rename_i hgt
      exact ih (Nat.lt_of_not_le hgt)

/-- `intSqrt n` is the floor square root: its square is at most `n` and the next
square exceeds `n`. -/
theorem intSqrt_spec (n : Nat) :
    intSqrt n * intSqrt n ≤ n ∧ n < (intSqrt n + 1) * (intSqrt n + 1) := by
  have hn : n < (n + 1) * (n + 1) := by nlinarith
  exact intSqrt_go_spec n n hn

theorem lookupFS_cons (q : String) (en : Entry) (fs : FS) (p : String) :
    lookupFS ((q, en) :: fs) p = if q = p then some en else lookupFS fs p := by
  by_cases h : q = p <;> simp [lookupFS, List.find?_cons, h]

theorem lookupFS_removeFS_self (fs : FS) (p : String) :
    lookupFS (removeFS fs p) p = none := by
  induction fs with
  | nil => rfl
  | cons hd tl ih =>
    obtain ⟨q, en⟩ := hd
    by_cases h : q = p
    · simpa [removeFS, h] using ih
    · simpa [removeFS, h, lookupFS_cons] using ih

theorem lookupFS_removeFS_ne (fs : FS) {p q : String} (h : ¬ p = q) :
    lookupFS (removeFS fs p) q = lookupFS fs q := by
  induction fs with
  | nil => rfl
  | cons hd tl ih =>
    obtain ⟨r, en⟩ := hd
    have hqp : ¬ q = p := fun hh => h hh.symm
    by_cases hr : r = p
    · have hrq : ¬ r = q := by rw [hr]; exact h
      simp only [removeFS, List.filter_cons, decide_not] at ih ⊢
      simp [hr, hrq, h, lookupFS_cons, ih]
    · simp only [removeFS, List.filter_cons, decide_not] at ih ⊢
      by_cases hq : r = q <;> simp [hr, hq, hqp, lookupFS_cons, ih]

theorem lookupFS_writeFS_self (fs : FS) (p : String) :
    lookupFS (writeFS fs p) p = some .file := by
  simp [writeFS, lookupFS_cons]

theorem lookupFS_writeFS_ne (fs : FS) {p q : String} (h : ¬ p = q) :
    lookupFS (writeFS fs p) q = lookupFS fs q := by
  simp [writeFS, lookupFS_cons, h, lookupFS_removeFS_ne fs h]

theorem build_index_flat (e : NDArray) :
    build_index e "flat" =
      .ok ({ kind := .flat, dimension := e.shape.tail.headI, ntotal := e.shape.headI },
           [.instantiate .flat e.shape.tail.headI, .train e.data, .add e.data]) := rfl

theorem build_index_ivfpq (e : NDArray) :
    build_index e "ivfpq" =
      .ok ({ kind := .ivfpq, dimension := e.shape.tail.headI, ntotal := e.shape.headI,
             numClusters := some (num_clusters e.shape.headI),
             numSubvectors := some (num_subvectors e.shape.tail.headI),
             bitsPerCode := some 8,
             nprobe := some (nprobe_of (num_clusters e.shape.headI)) },
           [.instantiate .ivfpq e.shape.tail.headI, .train e.data, .add e.data,
            .setNprobe (nprobe_of (num_clusters e.shape.headI))]) := rfl

theorem build_index_hnsw (e : NDArray) :
    build_index e "hnsw" =
      .ok ({ kind := .hnsw, dimension := e.shape.tail.headI, ntotal := e.shape.headI,
             hnswM := some 16, efConstruction := some 200, efSearch := some 64 },
           [.instantiate .hnsw e.shape.tail.headI, .setEfConstruction 200,
            .train e.data, .add e.data, .setEfSearch 64]) := rfl

theorem build_index_unsupported (e : NDArray) (t : String)
    (h1 : ¬ t = "flat") (h2 : ¬ t = "ivfpq") (h3 : ¬ t = "hnsw") :
    build_index e t = .error (.unsupportedVariant t) := by
  simp only [build_index, if_neg h1, if_neg h2, if_neg h3]

theorem build_index_ok_variant {e : NDArray} {t : String} {r : IndexState × List EngineOp}
    (h : build_index e t = .ok r) : t = "flat" ∨ t = "ivfpq" ∨ t = "hnsw" := by
  by_cases h1 : t = "flat"
  · exact Or.inl h1
  by_cases h2 : t = "ivfpq"
  · exact Or.inr (Or.inl h2)
  by_cases h3 : t = "hnsw"
  · exact Or.inr (Or.inr h3)
  rw [build_index_unsupported e t h1 h2 h3] at h
  exact absurd h (by simp)

theorem save_index_ok {fs fs2 : FS} {t ts path : String}
    (him : ¬ indexPathOf t ts = metaPathOf t ts)
    (hil : ¬ indexPathOf t ts = latestPathOf t)
    (h : save_index fs t ts true = (fs2, .ok path)) :
    path = indexPathOf t ts ∧
    lookupFS fs2 (latestPathOf t) = some (.symlink (indexPathOf t ts)) ∧
    lookupFS fs2 (indexPathOf t ts) = some .file := by
  unfold save_index at h
  simp only [if_true] at h
  by_cases hex :
      existsFS (writeFS (writeFS fs (indexPathOf t ts)) (metaPathOf t ts)) (latestPathOf t)
  · rw [if_pos hex] at h
    rw [show lexistsFS
          (removeFS (writeFS (writeFS fs (indexPathOf t ts)) (metaPathOf t ts)) (latestPathOf t))
          (latestPathOf t) = false by
        simp [lexistsFS, lookupFS_removeFS_self]] at h
    simp only [Bool.false_eq_true, if_false, Prod.mk.injEq, Except.ok.injEq] at h
    obtain ⟨hfs, hpath⟩ := h
    cases hpath
    refine ⟨rfl, ?_, ?_⟩
    · rw [← hfs, lookupFS_cons, if_pos rfl]
    · rw [← hfs, lookupFS_cons, if_neg (fun hh => hil hh.symm),
        lookupFS_removeFS_ne _ (fun hh => hil hh.symm),
        lookupFS_writeFS_ne _ (fun hh => him hh.symm),
        lookupFS_writeFS_self]
  · rw [if_neg hex] at h
    by_cases hlex :
        lexistsFS (writeFS (writeFS fs (indexPathOf t ts)) (metaPathOf t ts)) (latestPathOf t)
    · rw [if_pos hlex] at h
      exact absurd (congrArg Prod.snd h) (by simp)
    · rw [if_neg (by simpa using hlex)] at h
      simp only [Prod.mk.injEq, Except.ok.injEq] at h
      obtain ⟨hfs, hpath⟩ := h
      cases hpath
      refine ⟨rfl, ?_, ?_⟩
      · rw [← hfs, lookupFS_cons, if_pos rfl]
      · rw [← hfs, lookupFS_cons, if_neg (fun hh => hil hh.symm),
          lookupFS_writeFS_ne _ (fun hh => him hh.symm),
          lookupFS_writeFS_self]

theorem save_index_err {fs fs2 : FS} {t ts : String} {err : BuildError}
    (hil : ¬ indexPathOf t ts = latestPathOf t)
    (hml : ¬ metaPathOf t ts = latestPathOf t)
    (h : save_index fs t ts true = (fs2, .error err)) :
    err = .fileExists (latestPathOf t) ∧
    lookupFS fs2 (latestPathOf t) = lookupFS fs (latestPathOf t) ∧
    ∀ p, ¬ p = indexPathOf t ts → ¬ p = metaPathOf t ts →
      lookupFS fs2 p = lookupFS fs p := by
  unfold save_index at h
  simp only [if_true] at h
  by_cases hex :
      existsFS (writeFS (writeFS fs (indexPathOf t ts)) (metaPathOf t ts)) (latestPathOf t)
  · rw [if_pos hex] at h
    rw [show lexistsFS
          (removeFS (writeFS (writeFS fs (indexPathOf t ts)) (metaPathOf t ts)) (latestPathOf t))
          (latestPathOf t) = false by
        simp [lexistsFS, lookupFS_removeFS_self]] at h
    simp only [Bool.false_eq_true, if_false] at h
    exact absurd (congrArg Prod.snd h) (by simp)
  · rw [if_neg hex] at h
    by_cases hlex :
        lexistsFS (writeFS (writeFS fs (indexPathOf t ts)) (metaPathOf t ts)) (latestPathOf t)
    · rw [if_pos hlex] at h
      simp only [Prod.mk.injEq, Except.error.injEq] at h
      obtain ⟨hfs, herr⟩ := h
      cases herr
      refine ⟨rfl, ?_, ?_⟩
      · rw [← hfs, lookupFS_writeFS_ne _ hml, lookupFS_writeFS_ne _ hil]
      · intro p hpi hpm
        rw [← hfs, lookupFS_writeFS_ne _ (fun hh => hpm hh.symm),
          lookupFS_writeFS_ne _ (fun hh => hpi hh.symm)]
    · rw [if_neg (by simpa using hlex)] at h
      exact absurd (congrArg Prod.snd h) (by simp)

/-! ### Claim theorems -/

/-- C1 counterexample: the claim's formula `clamp(round(sqrt(N)), 4, 1024)` does
not match the code at N = 1000: source line 100 truncates (`int(np.sqrt(1000))`
is 31), while rounding gives 32 - so the derived cluster count is 31, not the
claimed 32. -/
theorem C1_counterexample :
    num_clusters 1000 = 31 ∧ specClusters 1000 = 32 ∧
    ¬ num_clusters 1000 = specClusters 1000 := by decide

/-- C1 (amended): for the IVFPQ variant the derived cluster count equals
`clamp(floor(sqrt(N)), 4, 1024)` for every N >= 1; in particular, for N = 1000
and D = 128 the derived spec has clusters = 31, subvectors = 64 and
nprobe = 3. -/
theorem C1_cluster_formula :
    (∀ n, 1 ≤ n → num_clusters n = clamp 4 1024 (intSqrt n)) ∧
    (builtState (mkZeros 1000 128) "ivfpq").map (·.numClusters) = some (some 31) ∧
    (builtState (mkZeros 1000 128) "ivfpq").map (·.numSubvectors) = some (some 64) ∧
    (builtState (mkZeros 1000 128) "ivfpq").map (·.nprobe) = some (some 3) := by
  refine ⟨fun n _ => ?_, by decide, by decide, by decide⟩
  simp only [num_clusters, clamp]
  exact Nat.max_comm (min (intSqrt n) 1024) 4

/-- C1 witness: the cluster formula instantiated at N = 1000. -/
theorem C1_witness : num_clusters 1000 = clamp 4 1024 (intSqrt 1000) :=
  C1_cluster_formula.1 1000 (by decide)

/-- C8: the IVFPQ cluster count derived from N is monotonically non-decreasing
in N, never exceeds 1024, and is never below 4, for every N >= 1. -/
theorem C8_cluster_monotone_bounded :
    (∀ m n, 1 ≤ m → m ≤ n → num_clusters m ≤ num_clusters n) ∧
    (∀ n, 1 ≤ n → 4 ≤ num_clusters n ∧ num_clusters n ≤ 1024) := by
  constructor
  · intro m n _ h
    simp only [num_clusters]
    exact max_le_max (min_le_min (intSqrt_mono h) le_rfl) le_rfl
  · intro n _
    simp only [num_clusters]
    exact ⟨le_max_right _ _, max_le (min_le_right _ _) (by norm_num)⟩

/-- C8 witness: monotonicity and the bounds instantiated at N = 10 and N = 50. -/
theorem C8_witness :
    num_clusters 10 ≤ num_clusters 50 ∧ 4 ≤ num_clusters 50 ∧ num_clusters 50 ≤ 1024 :=
  ⟨C8_cluster_monotone_bounded.1 10 50 (by decide) (by decide),
   (C8_cluster_monotone_bounded.2 50 (by decide)).1,
   (C8_cluster_monotone_bounded.2 50 (by decide)).2⟩

/-- C9: for the IVFPQ variant the derived subvector count equals
`min(64, floor(D/2))` for every D >= 1 and the post-build search width equals
`max(1, floor(clusters/10))`; in particular, for N = 5 and D = 8 the derived
spec has clusters = 4, subvectors = 4 and nprobe = 1. -/
theorem C9_subvectors_nprobe :
    (∀ (e : NDArray) (n d : Nat) (rest : List Nat), e.shape = n :: d :: rest → 1 ≤ d →
      (builtState e "ivfpq").map (·.numSubvectors) = some (some (min 64 (d / 2))) ∧
      (builtState e "ivfpq").map (·.nprobe) = some (some (max 1 (num_clusters n / 10)))) ∧
    (builtState (mkZeros 5 8) "ivfpq").map (·.numClusters) = some (some 4) ∧
    (builtState (mkZeros 5 8) "ivfpq").map (·.numSubvectors) = some (some 4) ∧
    (builtState (mkZeros 5 8) "ivfpq").map (·.nprobe) = some (some 1) := by
  refine ⟨?_, by decide, by decide, by decide⟩
  intro e n d rest hs _
  simp [builtState, build_index_ivfpq, hs, num_subvectors, nprobe_of, Except.toOption]

/-- C9 witness: the subvector and nprobe formulas instantiated at a 7 x 130
matrix. -/
theorem C9_witness :
    (builtState (mkZeros 7 130) "ivfpq").map (·.numSubvectors) =
      some (some (min 64 (130 / 2))) ∧
    (builtState (mkZeros 7 130) "ivfpq").map (·.nprobe) =
      some (some (max 1 (num_clusters 7 / 10))) :=
  C9_subvectors_nprobe.1 (mkZeros 7 130) 7 130 [] rfl (by decide)

/-- C3 counterexample: a successfully loaded matrix may still contain Inf.  For
the 1 x 1 matrix `[[inf]]` the loader succeeds and returns the matrix
unchanged, Inf included: `np.nan_to_num` only runs when at least one NaN was
found (source line 61), and this matrix has none. -/
theorem C3_counterexample :
    load_embeddings infMat = .ok (infMat, [.loadedInfo 1 1]) ∧
    Val.inf ∈ infMat.data := ⟨rfl, by decide⟩

/-- C3 (amended): for every successfully loaded input matrix the result
contains no NaN entry, every NaN entry of the input is replaced by zero at its
position, the NaN count is recorded as a logged warning when positive, and the
load never fails on account of NaNs (a rank >= 2 numeric matrix always loads);
Inf entries, however, survive when no NaN is present. -/
theorem C3_nan_sanitization (a : NDArray)
    (hrank : 2 ≤ a.shape.length) (hnum : a.numeric = true) :
    (load_embeddings a).toOption.isSome = true ∧
    ∀ emb logs, load_embeddings a = .ok (emb, logs) →
      emb.data.all (fun v => !isnan v) = true ∧
      (∀ i : Nat, a.data[i]? = some Val.nan → emb.data[i]? = some (Val.fin 0)) ∧
      (0 < nan_count a → LogEvent.nanWarning (nan_count a) ∈ logs) := by
  unfold load_embeddings
  rw [if_neg (by omega), if_neg (by simp [hnum])]
  by_cases hc : 0 < nan_count a
  · rw [if_pos hc]
    refine ⟨rfl, ?_⟩
    intro emb logs h
    simp only [Except.ok.injEq, Prod.mk.injEq] at h
    obtain ⟨hemb, hlogs⟩ := h
    refine ⟨?_, ?_, ?_⟩
    · rw [← hemb]
      simp only [List.all_eq_true]
      intro v hv
      obtain ⟨w, _, rfl⟩ := List.mem_map.mp hv
      cases w <;> rfl
    · intro i hi
      rw [← hemb]
      simp only [List.getElem?_map, hi, Option.map_some]
      rfl
    · intro _
      rw [← hlogs]
      simp
  · rw [if_neg hc]
    have hnil : a.data.filter (fun v => isnan v) = [] := by
      have : nan_count a = 0 := Nat.eq_zero_of_not_pos hc
      simpa [nan_count, List.length_eq_zero] using this
    have hno : ∀ v ∈ a.data, ¬ isnan v = true := List.filter_eq_nil_iff.mp hnil
    refine ⟨rfl, ?_⟩
    intro emb logs h
    simp only [Except.ok.injEq, Prod.mk.injEq] at h
    obtain ⟨hemb, _⟩ := h
    refine ⟨?_, ?_, ?_⟩
    · rw [← hemb]
      simp only [List.all_eq_true]
      intro v hv
      simpa using hno v hv
    · intro i hi
      have : Val.nan ∈ a.data := List.getElem?_mem hi
      exact absurd rfl (hno _ this)
    · intro hpos
      exact absurd hpos hc

/-- C3 witness: the sanitization theorem instantiated at a matrix with one NaN;
the load succeeds and the NaN position is zeroed. -/
theorem C3_witness :
    (load_embeddings nanMat).toOption.isSome = true ∧
    (load_embeddings nanMat = .ok ({ nanMat with data := [Val.fin 0, Val.fin 1] },
      [.loadedInfo 1 2, .nanWarning 1]) →
      ([Val.fin 0, Val.fin 1] : List Val)[0]? = some (Val.fin 0)) :=
  ⟨(C3_nan_sanitization nanMat (by decide) rfl).1,
   fun h => ((C3_nan_sanitization nanMat (by decide) rfl).2 _ _ h).2.1 0 rfl⟩

/-- C6 counterexample: a loaded object that is not a rank-2 numeric matrix and
is nevertheless accepted: the loader only trips over `shape[1]` (rank < 2) or
`np.isnan` (non-numeric dtype), so the rank-3 numeric array of shape
(1, 1, 1) loads without error. -/
theorem C6_counterexample :
    rank3Mat.shape.length = 3 ∧
    load_embeddings rank3Mat = .ok (rank3Mat, [.loadedInfo 1 1]) := ⟨rfl, rfl⟩

/-- C6 (amended): the loader fails with MalformedInputError exactly for loaded
objects of rank < 2 or with a non-numeric dtype; in particular a rank-2
numeric matrix is never rejected for its shape, but neither is any numeric
array of rank >= 3. -/
theorem C6_malformed_input (a : NDArray) :
    load_embeddings a = .error .malformedInput ↔
      (a.shape.length < 2 ∨ a.numeric = false) := by
  unfold load_embeddings
  by_cases h1 : a.shape.length < 2
  · simp [h1]
  · by_cases h2 : a.numeric = false
    · simp [h1, h2]
    · rw [if_neg h1, if_neg (by simp [h2])]
      by_cases hc : 0 < nan_count a
      · simp [hc, h1, h2]
      · simp [hc, h1, h2]

/-- C7: the benchmark uses exactly the first min(100, N) rows as single-vector
queries issued sequentially, and returns `avg_time_ms = total_time / num_test *
1000` and `qps = num_test / total_time`, hence `qps = 1000 / avg_time_ms`, both
positive, for every positive elapsed wall-clock time. -/
theorem C7_benchmark (index : IndexState) (e : NDArray) (n d : Nat) (rest : List Nat)
    (k : Nat) (elapsed : ℚ)
    (hs : e.shape = n :: d :: rest) (hn : 1 ≤ n) (he : 0 < elapsed) :
    (test_index index e k elapsed).1 =
      (List.range (min 100 n)).map (fun i => .search (rowOf e i) k) ∧
    (test_index index e k elapsed).2 =
      .ok ((elapsed / (min 100 n : Nat)) * 1000, ((min 100 n : Nat) : ℚ) / elapsed) ∧
    0 < (elapsed / (min 100 n : Nat)) * 1000 ∧
    0 < ((min 100 n : Nat) : ℚ) / elapsed ∧
    ((min 100 n : Nat) : ℚ) / elapsed = 1000 / ((elapsed / (min 100 n : Nat)) * 1000) := by
  have hm : 1 ≤ min 100 n := le_min (by norm_num) hn
  have hm0 : ¬ (min 100 n = 0) := by omega
  have hmq : (0 : ℚ) < ((min 100 n : Nat) : ℚ) := by
    exact_mod_cast Nat.pos_of_ne_zero hm0
  simp only [test_index, hs, List.tail_cons, List.headI]
  rw [if_neg hm0, if_neg (ne_of_gt he)]
  refine ⟨?_, rfl, ?_, ?_, ?_⟩
  · apply List.map_congr_left
    intro i hi
    have hi' : i < min 100 n := List.mem_range.mp hi
    congr 1
    rw [rowOf, hs]
    simp only [List.tail_cons, List.headI]
    rw [List.drop_take, List.take_take]
    congr 1
    have h1 : (i + 1) * d ≤ (min 100 n) * d := Nat.mul_le_mul_right d hi'
    rw [Nat.succ_mul] at h1
    omega
  · exact mul_pos (div_pos he hmq) (by norm_num)
  · exact div_pos hmq he
  · field_simp
    ring

/-- C7 witness: the benchmark theorem instantiated at a 1 x 1 matrix with an
elapsed time of one second. -/
theorem C7_witness :
    (test_index probeState (mkZeros 1 1) 10 1).1 =
      (List.range (min 100 1)).map (fun i => .search (rowOf (mkZeros 1 1) i) 10) ∧
    0 < ((min 100 1 : Nat) : ℚ) / 1 :=
  ⟨(C7_benchmark probeState (mkZeros 1 1) 1 1 [] 10 1 rfl (by decide) (by norm_num)).1,
   (C7_benchmark probeState (mkZeros 1 1) 1 1 [] 10 1 rfl (by decide) (by norm_num)).2.2.2.1⟩

/-- C2: for any input whose loading succeeds and whose canonicalized variant
tag is none of flat, ivfpq, hnsw, the build fails with the unsupported-variant
error, no Engine operation is invoked, and the save directory is untouched
(no artifact file, no pointer). -/
theorem C2_unsupported_variant (inp : BuildInput) (fs : FS) (a : NDArray)
    (hl : inp.loaded = some a)
    (hload : (load_embeddings a).toOption.isSome = true)
    (hbad : toLowerStr inp.index_type ∉ ["flat", "ivfpq", "hnsw"]) :
    (build inp fs).out = .error (.unsupportedVariant (toLowerStr inp.index_type)) ∧
    (build inp fs).trace = [] ∧
    (build inp fs).fs = fs := by
  simp only [List.mem_cons, List.not_mem_nil, or_false, not_or] at hbad
  obtain ⟨h1, h2, h3⟩ := hbad
  cases hres : load_embeddings a with
  | error err =>
    rw [hres] at hload
    simp [Except.toOption] at hload
  | ok p =>
    obtain ⟨emb, logs⟩ := p
    have hb := build_index_unsupported emb (toLowerStr inp.index_type) h1 h2 h3
    simp [build, hl, hres, hb]

/-- C2 witness: the unsupported-variant theorem instantiated at the tag
"lsh". -/
theorem C2_witness :
    (build inpLsh []).out = .error (.unsupportedVariant (toLowerStr "lsh")) ∧
    (build inpLsh []).trace = [] ∧
    (build inpLsh []).fs = [] :=
  C2_unsupported_variant inpLsh [] (mkZeros 1 1) rfl rfl (by decide)

/-- C4 counterexample: the Engine's train operation is invoked during a Flat
build as well - the capability probe `hasattr(index, 'train')` succeeds for
every variant (the Engine implements `train` as a no-op for Flat and HNSW), so
the trace of a Flat build over a 2 x 4 matrix contains one train operation,
refuting "train is invoked only when the variant is IVFPQ". -/
theorem C4_counterexample :
    (build_index (mkZeros 2 4) "flat").toOption.map
      (fun r => (r.2.filter isTrainOp).length) = some 1 := by rfl

/-- C4 (amended): during build the Engine's train operation is invoked for
every variant (a no-op for Flat and HNSW), and it is invoked exactly once, on
the full EmbeddingMatrix, before any add operation. -/
theorem C4_train_once_before_add (e : NDArray) (t : String)
    (st : IndexState) (tr : List EngineOp)
    (h : build_index e t = .ok (st, tr)) :
    tr.filter isTrainOp = [.train e.data] ∧
    tr.filter isAddOp = [.add e.data] ∧
    tr.findIdx isTrainOp < tr.findIdx isAddOp := by
  rcases build_index_ok_variant h with h1 | h2 | h3
  · subst h1
    rw [build_index_flat] at h
    simp only [Except.ok.injEq, Prod.mk.injEq] at h
    obtain ⟨-, htr⟩ := h
    subst htr
    exact ⟨rfl, rfl, by norm_num [List.findIdx_cons, isTrainOp, isAddOp]⟩
  · subst h2
    rw [build_index_ivfpq] at h
    simp only [Except.ok.injEq, Prod.mk.injEq] at h
    obtain ⟨-, htr⟩ := h
    subst htr
    exact ⟨rfl, rfl, by norm_num [List.findIdx_cons, isTrainOp, isAddOp]⟩
  · subst h3
    rw [build_index_hnsw] at h
    simp only [Except.ok.injEq, Prod.mk.injEq] at h
    obtain ⟨-, htr⟩ := h
    subst htr
    exact ⟨rfl, rfl, by norm_num [List.findIdx_cons, isTrainOp, isAddOp]⟩

/-- C4 witness: the amended train-lifecycle theorem instantiated at a Flat
build over a 2 x 4 matrix. -/
theorem C4_witness :
    (build_index (mkZeros 2 4) "flat").toOption.map
        (fun r => (r.2.filter isTrainOp, r.2.filter isAddOp)) =
      some ([.train (mkZeros 2 4).data], [.add (mkZeros 2 4).data]) := by
  have h := C4_train_once_before_add (mkZeros 2 4) "flat" _ _ (build_index_flat (mkZeros 2 4))
  rw [build_index_flat]
  simp [Except.toOption, h.1, h.2.1]

/-- C5: if any stage of a build fails, the "latest" pointer entry is unchanged
and every previously published file other than the two new timestamped names is
untouched; on success, the saved path is the new timestamped index file, which
exists as a regular file, and the "latest" pointer is a fresh link to it. -/
theorem C5_publish_latest (inp : BuildInput) (fs : FS)
    (him : ¬ indexPathOf (toLowerStr inp.index_type) inp.timestamp =
             metaPathOf (toLowerStr inp.index_type) inp.timestamp)
    (hil : ¬ indexPathOf (toLowerStr inp.index_type) inp.timestamp =
             latestPathOf (toLowerStr inp.index_type))
    (hml : ¬ metaPathOf (toLowerStr inp.index_type) inp.timestamp =
             latestPathOf (toLowerStr inp.index_type)) :
    (∀ err, (build inp fs).out = .error err →
      lookupFS (build inp fs).fs (latestPathOf (toLowerStr inp.index_type)) =
        lookupFS fs (latestPathOf (toLowerStr inp.index_type)) ∧
      ∀ p, ¬ p = indexPathOf (toLowerStr inp.index_type) inp.timestamp →
           ¬ p = metaPathOf (toLowerStr inp.index_type) inp.timestamp →
        lookupFS (build inp fs).fs p = lookupFS fs p) ∧
    (∀ path, (build inp fs).out = .ok path →
      path = indexPathOf (toLowerStr inp.index_type) inp.timestamp ∧
      lookupFS (build inp fs).fs (latestPathOf (toLowerStr inp.index_type)) =
        some (.symlink path) ∧
      lookupFS (build inp fs).fs path = some .file) := by
  cases hl : inp.loaded with
  | none =>
    constructor
    · intro err _
      simp [build, hl]
    · intro path hpath
      simp [build, hl] at hpath
  | some a =>
    cases hres : load_embeddings a with
    | error err0 =>
      constructor
      · intro err _
        simp [build, hl, hres]
      · intro path hpath
        simp [build, hl, hres] at hpath
    | ok p0 =>
      obtain ⟨emb, logs⟩ := p0
      cases hbi : build_index emb (toLowerStr inp.index_type) with
      | error err1 =>
        constructor
        · intro err _
          simp [build, hl, hres, hbi]
        · intro path hpath
          simp [build, hl, hres, hbi] at hpath
      | ok p1 =>
        obtain ⟨st, tr1⟩ := p1
        rcases ht : test_index st emb 10 inp.elapsed with ⟨tr2, tres⟩
        cases tres with
        | error err2 =>
          constructor
          · intro err _
            simp [build, hl, hres, hbi, ht]
          · intro path hpath
            simp [build, hl, hres, hbi, ht] at hpath
        | ok perf =>
          rcases hsv : save_index fs (toLowerStr inp.index_type) inp.timestamp true
            with ⟨fs2, sres⟩
          cases sres with
          | error err3 =>
            have hspec := save_index_err hil hml hsv
            constructor
            · intro err _
              simp only [build, hl, hres, hbi, ht, hsv]
              exact ⟨hspec.2.1, hspec.2.2⟩
            · intro path hpath
              simp [build, hl, hres, hbi, ht, hsv] at hpath
          | ok path0 =>
            have hspec := save_index_ok him hil hsv
            constructor
            · intro err herr
              simp [build, hl, hres, hbi, ht, hsv] at herr
            · intro path hpath
              simp only [build, hl, hres, hbi, ht, hsv] at hpath ⊢
              simp only [Except.ok.injEq] at hpath
              subst hpath
              exact ⟨hspec.1, by rw [hspec.1, hspec.2.1], by rw [hspec.1, hspec.2.2]⟩

/-- C5 witness: the publish theorem instantiated at a successful concrete
build - "latest" ends up as a link to the new timestamped file, which is a
regular file. -/
theorem C5_witness :
    lookupFS (build inpOk []).fs (latestPathOf (toLowerStr "ivfpq")) =
      some (.symlink (indexPathOf (toLowerStr "ivfpq") "20260101-000000")) ∧
    lookupFS (build inpOk []).fs (indexPathOf (toLowerStr "ivfpq") "20260101-000000") =
      some .file := by
  have h := (C5_publish_latest inpOk [] (by decide) (by decide) (by decide)).2
    (indexPathOf (toLowerStr "ivfpq") "20260101-000000") (by rfl)
  exact ⟨h.2.1, h.2.2⟩

theorem resolveExists_succ (fs : FS) (fuel : Nat) (p : String) :
    resolveExists fs (fuel + 1) p =
      match lookupFS fs p with
      | none => false
      | some .file => true
      | some (.symlink target) => resolveExists fs fuel target := rfl

/-- C10: when the pre-existing "latest" pointer is a dangling link, publishing
fails at the fresh-pointer creation - after the new index blob (and sidecar)
have been written - because `os.path.exists` resolves the link, reports it
absent, and the removal step is skipped, so `os.symlink` hits the still-present
name. -/
theorem C10_dangling_pointer (fs : FS) (t ts tgt : String)
    (hlat : lookupFS fs (latestPathOf t) = some (.symlink tgt))
    (htgt : lookupFS fs tgt = none)
    (h1 : ¬ tgt = indexPathOf t ts) (h2 : ¬ tgt = metaPathOf t ts)
    (him : ¬ indexPathOf t ts = metaPathOf t ts)
    (hil : ¬ indexPathOf t ts = latestPathOf t)
    (hml : ¬ metaPathOf t ts = latestPathOf t) :
    (save_index fs t ts true).2 = .error (.fileExists (latestPathOf t)) ∧
    lookupFS (save_index fs t ts true).1 (indexPathOf t ts) = some .file ∧
    lookupFS (save_index fs t ts true).1 (latestPathOf t) = some (.symlink tgt) := by
  have hlat2 : lookupFS (writeFS (writeFS fs (indexPathOf t ts)) (metaPathOf t ts))
      (latestPathOf t) = some (.symlink tgt) := by
    rw [lookupFS_writeFS_ne _ hml, lookupFS_writeFS_ne _ hil, hlat]
  have htgt2 : lookupFS (writeFS (writeFS fs (indexPathOf t ts)) (metaPathOf t ts))
      tgt = none := by
    rw [lookupFS_writeFS_ne _ (fun hh => h2 hh.symm),
      lookupFS_writeFS_ne _ (fun hh => h1 hh.symm), htgt]
  have hex : existsFS (writeFS (writeFS fs (indexPathOf t ts)) (metaPathOf t ts))
      (latestPathOf t) = false := by
    show resolveExists _ 40 _ = false
    rw [show (40 : Nat) = 39 + 1 from rfl, resolveExists_succ, hlat2]
    show resolveExists _ 39 _ = false
    rw [show (39 : Nat) = 38 + 1 from rfl, resolveExists_succ, htgt2]
  have hlex : lexistsFS (writeFS (writeFS fs (indexPathOf t ts)) (metaPathOf t ts))
      (latestPathOf t) = true := by
    simp [lexistsFS, hlat2]
  have hres : save_index fs t ts true =
      (writeFS (writeFS fs (indexPathOf t ts)) (metaPathOf t ts),
       .error (.fileExists (latestPathOf t))) := by
    unfold save_index
    simp only [eq_self_iff_true, if_true, hex, Bool.false_eq_true, if_false, hlex]
  rw [hres]
  refine ⟨rfl, ?_, hlat2⟩
  rw [lookupFS_writeFS_ne _ (fun hh => him hh.symm), lookupFS_writeFS_self]

/-- C10 witness: the dangling-pointer theorem instantiated at a concrete
directory whose "latest" link points at a deleted blob. -/
theorem C10_witness :
    (save_index fsDangling "ivfpq" "20260101-000000" true).2 =
      .error (.fileExists (latestPathOf "ivfpq")) ∧
    lookupFS (save_index fsDangling "ivfpq" "20260101-000000" true).1
      (indexPathOf "ivfpq" "20260101-000000") = some .file := by
  have h := C10_dangling_pointer fsDangling "ivfpq" "20260101-000000"
    "faiss_ivfpq_20250101-000000.index" rfl rfl
    (by decide) (by decide) (by decide) (by decide) (by decide)
  exact ⟨h.1, h.2.1⟩

end FaissStore
